import Mathlib

/-!
Shallow embedding of the InferX repository (package `xinfer`): the model
registry/factory in `src/xinfer/core.py` and the three backend wrappers
`TimmModel` (src/xinfer/timm/timm_model.py), `Vision2SeqModel`
(src/xinfer/transformers/auto.py) and `Moondream`
(src/xinfer/transformers/moondream.py).

External ML libraries (torch, timm, transformers, PIL, requests) are out of
scope of the repository; their calls are embedded as explicit function
parameters (`model`, `sm`, `generateDecode`, `batchAnswer`) or as an `Env`
record holding the filesystem and network, so that every wrapper definition
below mirrors only the repository's own control flow.
-/

namespace InferX

/-- Exception values a wrapper call can surface.  `valueError` is Python's
`ValueError`; `fileNotFoundError` is the `FileNotFoundError` raised by
`PIL.Image.open` on a missing local path; `requestsError` is an exception
raised by `requests.get` on a failed network fetch; `indexError` is the
`IndexError` of an out-of-range list subscript. -/
inductive PyErr where
  | valueError (msg : String)
  | fileNotFoundError (path : String)
  | requestsError (msg : String)
  | indexError
  deriving Repr, DecidableEq

/-- Whether an exception value is a `ValueError`. -/
def PyErr.isValueError : PyErr → Bool
  | .valueError _ => true
  | _ => false

/-- A decoded image (the result of `PIL.Image.open`), identified by its
source string. -/
structure Image where
  src : String
  deriving Repr, DecidableEq

/-- One element of a wrapper's `images` argument: a string (local path or
URL) or a value of any other runtime type, which every wrapper rejects with
`ValueError("Input must be a string (local path or URL)")`. -/
inductive ImgInput where
  | str (s : String)
  | nonStr
  deriving Repr, DecidableEq

/-- The ambient world: `fs` is `PIL.Image.open` on a local path (`none` =
the file is absent, so Python raises `FileNotFoundError`); `net` is
`requests.get` followed by `PIL.Image.open` on the response (`Except.error` =
the fetch raised a requests exception with the given message). -/
structure Env where
  fs : String → Option Image
  net : String → Except String Image

/-- Python list-of-chars ordering helper: does `needle` occur at the head of
`hay`?  (Structural version of `str.startswith`.) -/
def listStarts : List Char → List Char → Bool
  | [], _ => true
  | _ :: _, [] => false
  | n :: ns, h :: hs => n = h && listStarts ns hs

/-- Python `needle in hay` on strings (as char lists): `needle` occurs as a
contiguous substring of `hay`.  The empty needle is contained in anything. -/
def listContains (needle hay : List Char) : Bool :=
  match hay with
  | [] => needle.isEmpty
  | _ :: hs => listStarts needle hay || listContains needle hs

/-- Python `str.startswith` on `String`s. -/
def pyStarts (s pre : String) : Bool := listStarts pre.data s.data

/-- Python `str.lower` (ASCII case folding, which covers the model ids the
registry holds). -/
def pyLower (s : String) : String := ⟨s.data.map Char.toLower⟩

/-- Python `needle in hay` on `String`s. -/
def pyContains (hay needle : String) : Bool := listContains needle.data hay.data

/-- The `image_path.startswith(("http://", "https://"))` test shared by all
three wrappers. -/
def isUrl (s : String) : Bool := pyStarts s "http://" || pyStarts s "https://"

/-- Per-image resolution inside `TimmModel.preprocess`
(timm_model.py lines 49-59): the non-string check raises `ValueError`; a URL
is fetched with `requests.get` (no try/except, so a failed fetch propagates
the requests exception); a local path goes through `Image.open` with no
try/except, so a missing file propagates `FileNotFoundError`. -/
def timmResolve (env : Env) : ImgInput → Except PyErr Image
  | .nonStr => .error (.valueError "Input must be a string (local path or URL)")
  | .str s =>
    if isUrl s then
      match env.net s with
      | .ok img => .ok img
      | .error e => .error (.requestsError e)
    else
      match env.fs s with
      | some img => .ok img
      | none => .error (.fileNotFoundError s)

/-- Per-image resolution inside `Vision2SeqModel.preprocess` (auto.py lines
58-73) and `Moondream.preprocess` (moondream.py lines 53-68): like
`timmResolve`, except that the local open is wrapped in
`try/except FileNotFoundError`, re-raised as
`ValueError(f"Local file not found: <path>")`.  The URL branch has no
try/except, so a failed fetch still propagates the requests exception. -/
def vlmResolve (env : Env) : ImgInput → Except PyErr Image
  | .nonStr => .error (.valueError "Input must be a string (local path or URL)")
  | .str s =>
    if isUrl s then
      match env.net s with
      | .ok img => .ok img
      | .error e => .error (.requestsError e)
    else
      match env.fs s with
      | some img => .ok img
      | none => .error (.valueError ("Local file not found: " ++ s))

/-- The `for image_path in images` loop of each `preprocess`: resolve the
images left to right, propagating the first exception. -/
def resolveList (f : ImgInput → Except PyErr Image) : List ImgInput → Except PyErr (List Image)
  | [] => .ok []
  | x :: xs =>
    match f x with
    | .error e => .error e
    | .ok img =>
      match resolveList f xs with
      | .error e => .error e
      | .ok imgs => .ok (img :: imgs)

/-- An `images` argument: `preprocess` accepts a single item or a list
(`if not isinstance(images, list): images = [images]`). -/
inductive ImagesArg where
  | one (i : ImgInput)
  | many (l : List ImgInput)
  deriving Repr, DecidableEq

/-- A `prompts` argument of `Vision2SeqModel.preprocess`: a single string or
a list of strings. -/
inductive PromptsArg where
  | one (s : String)
  | many (l : List String)
  deriving Repr, DecidableEq

/-- List normalization of the `images` argument. -/
def normImages : ImagesArg → List ImgInput
  | .one i => [i]
  | .many l => l

/-- List normalization of the `prompts` argument. -/
def normPrompts : PromptsArg → List String
  | .one s => [s]
  | .many l => l

/-- `TimmModel.preprocess` (timm_model.py lines 44-68): normalize to a list
and resolve every image.  The tail of the Python function (timm transforms,
`torch.stack`, `.to(device, dtype)`) is external tensor glue; the resolved
image list stands for the stacked batch tensor, whose rows are in input
order. -/
def timmPreprocess (env : Env) (images : ImagesArg) : Except PyErr (List Image) :=
  resolveList (timmResolve env) (normImages images)

/-- The message of the length-mismatch `ValueError` in
`Vision2SeqModel.preprocess` (auto.py line 55). -/
def v2sLenMismatchMsg : String := "The number of images and prompts must be the same"

/-- `Vision2SeqModel.preprocess` (auto.py lines 44-77): normalize both
arguments, raise `ValueError` if the list lengths differ, then resolve the
images.  The final `self.processor(...)` call is external; the resolved
images paired with the prompts stand for its input. -/
def v2sPreprocess (env : Env) (images : ImagesArg) (prompts : PromptsArg) :
    Except PyErr (List Image × List String) :=
  let imgs := normImages images
  let ps := normPrompts prompts
  if imgs.length ≠ ps.length then
    .error (.valueError v2sLenMismatchMsg)
  else
    match resolveList (vlmResolve env) imgs with
    | .error e => .error e
    | .ok resolved => .ok (resolved, ps)

/-- `Moondream.preprocess` (moondream.py lines 45-70): images only, no
prompts and no length check. -/
def moondreamPreprocess (env : Env) (images : ImagesArg) : Except PyErr (List Image) :=
  resolveList (vlmResolve env) (normImages images)

/-- `Moondream.infer_batch` (moondream.py lines 99-115): preprocess the
images and hand images and prompts straight to the external
`model.batch_answer` (the `batchAnswer` parameter).  There is no check that
`images` and `prompts` have the same length. -/
def moondreamInferBatch (env : Env)
    (batchAnswer : List Image → List String → List String)
    (images : List ImgInput) (prompts : List String) : Except PyErr (List String) :=
  match moondreamPreprocess env (.many images) with
  | .error e => .error e
  | .ok imgs => .ok (batchAnswer imgs prompts)

/-- Modelled from the spec: the running-statistics object each wrapper owns
(`base_model.py` / `models.py`, which define `BaseModel` and its `stats`,
are not under src/).  Spec section 3: a BaseModel instance owns "optional
running statistics (inference count, cumulative time)". -/
structure ModelStats where
  inferenceCount : Nat
  totalTime : ℚ
  deriving Repr, DecidableEq

/-- Modelled from the spec: `stats.update_inference_count(n)` adds `n` to
the running inference count. -/
def updateInferenceCount (st : ModelStats) (n : Nat) : ModelStats :=
  { st with inferenceCount := st.inferenceCount + n }

/-- Modelled from the spec: `stats.track_inference_time()` adds the elapsed
wall time of the tracked block to the cumulative-time statistic.  Wall time
is not observable in the embedding, so the elapsed amount is an input. -/
def trackInferenceTime (st : ModelStats) (elapsed : ℚ) : ModelStats :=
  { st with totalTime := st.totalTime + elapsed }

/-- The mutable fields of a `Vision2SeqModel` instance relevant to
inference: configuration set at construction plus the stats object.  The
loaded model/processor are external handles that no wrapper method
reassigns. -/
structure V2SState where
  modelId : String
  device : String
  dtype : String
  stats : ModelStats
  deriving Repr, DecidableEq

/-- Python whitespace characters recognized by `str.strip()` (the ASCII
set). -/
def pyWs (c : Char) : Bool :=
  c ∈ [' ', '\t', '\n', '\r', '\x0b', '\x0c']

/-- Python `str.replace("\n", "")`: drop every newline character. -/
def removeNewlines (s : List Char) : List Char := s.filter (fun c => c ≠ '\n')

/-- Python `str.strip()`: drop whitespace from both ends. -/
def pyStrip (s : List Char) : List Char :=
  (((s.dropWhile pyWs).reverse).dropWhile pyWs).reverse

/-- auto.py line 87: `output.replace("\n", "").strip()` applied to one
decoded output. -/
def cleanOutput (s : String) : String := ⟨pyStrip (removeNewlines s.data)⟩

/-- `Vision2SeqModel.postprocess` (auto.py lines 85-87) applied to the
output of the external `processor.batch_decode`: clean each decoded
string. -/
def v2sPostprocess (decoded : List String) : List String := decoded.map cleanOutput

/-- `Vision2SeqModel.infer` (auto.py lines 89-96): preprocess the single
image/prompt pair, run the external generate + batch_decode
(`generateDecode`), postprocess, take element 0 (raising `IndexError` if
the decoded list is empty), then update the stats: the timing context adds
`elapsed` to the cumulative time and `update_inference_count(1)` runs after
the block. -/
def v2sInfer (env : Env) (generateDecode : List Image → List String → List String)
    (elapsed : ℚ) (image : ImgInput) (prompt : String) (st : V2SState) :
    Except PyErr (String × V2SState) :=
  match v2sPreprocess env (.one image) (.one prompt) with
  | .error e => .error e
  | .ok (imgs, ps) =>
    match v2sPostprocess (generateDecode imgs ps) with
    | [] => .error .indexError
    | r :: _ =>
      .ok (r, { st with stats := updateInferenceCount (trackInferenceTime st.stats elapsed) 1 })

/-- `Vision2SeqModel.infer_batch` (auto.py lines 98-105): same pipeline on
lists; `update_inference_count(len(images))` uses the caller's `images`
list. -/
def v2sInferBatch (env : Env) (generateDecode : List Image → List String → List String)
    (elapsed : ℚ) (images : List ImgInput) (prompts : List String) (st : V2SState) :
    Except PyErr (List String × V2SState) :=
  match v2sPreprocess env (.many images) (.many prompts) with
  | .error e => .error e
  | .ok (imgs, ps) =>
    .ok (v2sPostprocess (generateDecode imgs ps),
      { st with stats := updateInferenceCount (trackInferenceTime st.stats elapsed) images.length })

/-- The dtype strings accepted by every wrapper constructor (the keys of
`dtype_map` in timm_model.py lines 24-28, auto.py lines 23-27, moondream.py
lines 32-36). -/
def allowedDtypes : List String := ["float32", "float16", "bfloat16"]

/-- The message of the dtype `ValueError` (timm_model.py line 30, auto.py
line 29, moondream.py line 38). -/
def dtypeErrMsg : String := "dtype must be one of 'float32', 'float16', or 'bfloat16'"

/-- The result of a successful wrapper construction: the configuration kept
on the instance plus the external load result (`α`, produced by
`load_model`). -/
structure InitResult (α : Type) where
  modelId : String
  device : String
  dtype : String
  loaded : α

/-- `TimmModel.__init__` (timm_model.py lines 15-34): validate the dtype
against `dtype_map` first — `raise ValueError(...)` when absent — and only
then call `load_model` (the `loadModel` parameter). -/
def timmInit {α : Type} (loadModel : Unit → α) (modelId device dtype : String) :
    Except PyErr (InitResult α) :=
  if dtype ∈ allowedDtypes then
    .ok { modelId := modelId, device := device, dtype := dtype, loaded := loadModel () }
  else
    .error (.valueError dtypeErrMsg)

/-- `Vision2SeqModel.__init__` (auto.py lines 16-33): identical dtype
validation before `load_model`. -/
def v2sInit {α : Type} (loadModel : Unit → α) (modelId device dtype : String) :
    Except PyErr (InitResult α) :=
  if dtype ∈ allowedDtypes then
    .ok { modelId := modelId, device := device, dtype := dtype, loaded := loadModel () }
  else
    .error (.valueError dtypeErrMsg)

/-- moondream.py line 25: `device = "cuda" if device == "auto" and
torch.cuda.is_available() else "cpu"`. -/
def moondreamResolveDevice (cudaAvailable : Bool) (device : String) : String :=
  if device = "auto" && cudaAvailable then "cuda" else "cpu"

/-- `Moondream.__init__` (moondream.py lines 17-43): resolve the device,
validate the dtype — `raise ValueError(...)` when absent — and only then
call `load_model`. -/
def moondreamInit {α : Type} (cudaAvailable : Bool) (loadModel : Unit → α)
    (modelId revision device dtype : String) : Except PyErr (InitResult α) :=
  let dev := moondreamResolveDevice cudaAvailable device
  if dtype ∈ allowedDtypes then
    .ok { modelId := modelId, device := dev, dtype := dtype, loaded := loadModel () }
  else
    .error (.valueError dtypeErrMsg)

/-- The registry entry data consumed by `core.list_models` (core.py lines
19-27): spec section 3, ModelInfo = {id, implementation, input/output
category}; `ioValue` is the `.value` string of the `input_output` enum
member, the third table column. -/
structure ModelInfo where
  implementation : String
  id : String
  ioValue : String
  deriving Repr, DecidableEq

/-- The table row built for one registry entry (core.py lines 21-27). -/
def modelRow (m : ModelInfo) : String × String × String :=
  (m.implementation, m.id, m.ioValue)

/-- The placeholder row appended on truncation (core.py lines 31-32). -/
def ellipsisRow : String × String × String := ("...", "...", "...")

/-- The filter of core.py line 20:
`wildcard is None or wildcard.lower() in model_info.id.lower()`. -/
def matchesWildcard (wildcard : Option String) (m : ModelInfo) : Bool :=
  match wildcard with
  | none => true
  | some w => pyContains (pyLower m.id) (pyLower w)

/-- `core.list_models` (core.py lines 11-37), up to the rows handed to the
table printer (the rich console is presentation glue): collect a row per
matching registry entry; if more than `limit` rows matched, keep the first
`limit` and append the ellipsis placeholder row twice. -/
def listModelsRows (registry : List ModelInfo) (wildcard : Option String) (limit : Nat) :
    List (String × String × String) :=
  let rows := (registry.filter (matchesWildcard wildcard)).map modelRow
  if rows.length > limit then rows.take limit ++ [ellipsisRow, ellipsisRow] else rows

/-- The lookup failure of the registry. Modelled from the spec:
`model_registry.py` is not under src/; spec section 4.1: `get_model(id,
**kwargs)` "fails with a lookup error if `id` is absent". -/
inductive RegistryErr where
  | lookupError (id : String)
  deriving Repr, DecidableEq

/-- Modelled from the spec: `model_registry.get_model` (`model_registry.py`
is not under src/).  Spec section 4.1: fail with a lookup error if the id is
absent, otherwise construct the wrapper, forwarding the keyword arguments
(`κ`) to the constructor stored with the entry. -/
def get_model {κ α : Type} (registry : List (String × (κ → α))) (modelId : String)
    (kwargs : κ) : Except RegistryErr α :=
  match registry.find? (fun e => e.1 == modelId) with
  | none => .error (.lookupError modelId)
  | some e => .ok (e.2 kwargs)

/-- `core.create_model` (core.py lines 7-8):
`return model_registry.get_model(model_id, **kwargs)`. -/
def create_model {κ α : Type} (registry : List (String × (κ → α))) (modelId : String)
    (kwargs : κ) : Except RegistryErr α :=
  get_model registry modelId kwargs

/-- One value of a Python result dict: a string, an int (`int(class_idx)`)
or a number (`float(prob)`). -/
inductive PyVal where
  | s (v : String)
  | i (v : Int)
  | q (v : ℚ)
  deriving Repr, DecidableEq

/-- A Python dict with string keys, in insertion order. -/
abbrev PyDict := List (String × PyVal)

/-- Insert an (index, value) pair into a list sorted by descending value. -/
def insertDesc (e : Nat × ℚ) : List (Nat × ℚ) → List (Nat × ℚ)
  | [] => [e]
  | x :: xs => if x.2 ≤ e.2 then e :: x :: xs else x :: insertDesc e xs

/-- Sort (index, value) pairs by descending value. -/
def sortDesc : List (Nat × ℚ) → List (Nat × ℚ)
  | [] => []
  | x :: xs => insertDesc x (sortDesc xs)

/-- `torch.topk` on one row: the `k` largest entries with their indices,
values descending.  (torch raises when `k` exceeds the row length; the
theorems assume `k ≤ row.length` accordingly.) -/
def topkRow (row : List ℚ) (k : Nat) : List (Nat × ℚ) :=
  (sortDesc row.enum).take k

/-- The per-row result construction shared by `TimmModel.infer`
(timm_model.py lines 79-91) and `TimmModel.infer_batch` (lines 101-116):
`torch.topk(softmax_row * 100, k)`, then one dict
`{"class": name, "id": int(idx), "confidence": float(prob)}` per topk
entry, where `name = im_classes[idx]`.  `sm` stands for torch's softmax on
one row of the model output; `imClasses` is
`list(IMAGENET2012_CLASSES.values())`. -/
def timmRowResult (imClasses : List String) (sm : List ℚ → List ℚ)
    (row : List ℚ) (k : Nat) : List PyDict :=
  let probs := (sm row).map (fun p => p * 100)
  (topkRow probs k).map (fun e =>
    [("class", PyVal.s (imClasses.getD e.1 "")),
     ("id", PyVal.i (e.1 : Int)),
     ("confidence", PyVal.q e.2)])

/-- `TimmModel.infer` (timm_model.py lines 70-91): preprocess the single
image, run the external forward pass (`model`, one score row per batch
row), and build the result from row 0 of the output. -/
def timmInfer (env : Env) (model : List Image → List (List ℚ)) (sm : List ℚ → List ℚ)
    (imClasses : List String) (image : ImgInput) (k : Nat) :
    Except PyErr (List PyDict) :=
  match timmPreprocess env (.one image) with
  | .error e => .error e
  | .ok imgs => .ok (timmRowResult imClasses sm ((model imgs).getD 0 []) k)

/-- `TimmModel.infer_batch` (timm_model.py lines 93-118): preprocess the
list, run the forward pass once, then build one per-image result for
`i in range(len(images))` (the preprocessed batch) from output row `i`. -/
def timmInferBatch (env : Env) (model : List Image → List (List ℚ)) (sm : List ℚ → List ℚ)
    (imClasses : List String) (images : List ImgInput) (k : Nat) :
    Except PyErr (List (List PyDict)) :=
  match timmPreprocess env (.many images) with
  | .error e => .error e
  | .ok imgs =>
    .ok ((List.range imgs.length).map
      (fun i => timmRowResult imClasses sm ((model imgs).getD i []) k))

/-- A world whose local filesystem holds every path and whose network is
down: used to exercise concrete wrapper runs. -/
def fsOnlyEnv : Env :=
  { fs := fun p => some ⟨p⟩, net := fun _ => .error "connection error" }

/-- A world with no local files and a network that is down. -/
def emptyEnv : Env :=
  { fs := fun _ => none, net := fun _ => .error "connection error" }

/-- A concrete wrapper state for exercising the stats updates. -/
def st0 : V2SState :=
  { modelId := "m", device := "cpu", dtype := "float32",
    stats := { inferenceCount := 3, totalTime := 2 } }

/-- The claim-side trimmed-ends predicate: neither the first nor the last
character is Python whitespace. -/
def noEdgeWs (l : List Char) : Bool :=
  (match l.head? with | none => true | some c => !pyWs c) &&
  (match l.getLast? with | none => true | some c => !pyWs c)

/-! Helper lemmas about the embedded operations. -/

theorem resolveList_ok_length {f : ImgInput → Except PyErr Image}
    {l : List ImgInput} {r : List Image} (h : resolveList f l = .ok r) :
    r.length = l.length := by
  induction l generalizing r with
  | nil =>
    simp only [resolveList, Except.ok.injEq] at h
    subst h; rfl
  | cons x xs ih =>
    simp only [resolveList] at h
    cases hx : f x with
    | error e => rw [hx] at h; exact absurd h (by simp)
    | ok img =>
      rw [hx] at h
      cases hxs : resolveList f xs with
      | error e => rw [hxs] at h; exact absurd h (by simp)
      | ok imgs =>
        rw [hxs] at h
        simp only [Except.ok.injEq] at h
        subst h
        simp [ih hxs]

theorem resolveList_ok_get {f : ImgInput → Except PyErr Image}
    {l : List ImgInput} {r : List Image} (h : resolveList f l = .ok r)
    (i : Nat) (hi : i < l.length) :
    f (l.getD i .nonStr) = .ok (r.getD i ⟨""⟩) := by
  induction l generalizing r i with
  | nil => exact absurd hi (by simp)
  | cons x xs ih =>
    simp only [resolveList] at h
    cases hx : f x with
    | error e => rw [hx] at h; exact absurd h (by simp)
    | ok img =>
      rw [hx] at h
      cases hxs : resolveList f xs with
      | error e => rw [hxs] at h; exact absurd h (by simp)
      | ok imgs =>
        rw [hxs] at h
        simp only [Except.ok.injEq] at h
        subst h
        cases i with
        | zero => simpa using hx
        | succ j =>
          simp only [List.getD_cons_succ]
          exact ih hxs j (by simpa using hi)

theorem insertDesc_length (e : Nat × ℚ) (l : List (Nat × ℚ)) :
    (insertDesc e l).length = l.length + 1 := by
  induction l with
  | nil => rfl
  | cons x xs ih =>
    simp only [insertDesc]
    split
    · simp
    · simp [ih]

theorem sortDesc_length (l : List (Nat × ℚ)) : (sortDesc l).length = l.length := by
  induction l with
  | nil => rfl
  | cons x xs ih => simp [sortDesc, insertDesc_length, ih]

theorem mem_insertDesc {e x : Nat × ℚ} {l : List (Nat × ℚ)}
    (h : x ∈ insertDesc e l) : x = e ∨ x ∈ l := by
  induction l with
  | nil => simpa [insertDesc] using h
  | cons y ys ih =>
    simp only [insertDesc] at h
    split at h
    · rcases List.mem_cons.mp h with h1 | h1
      · exact Or.inl h1
      · exact Or.inr h1
    · rcases List.mem_cons.mp h with h1 | h1
      · exact Or.inr (by simp [h1])
      · rcases ih h1 with h2 | h2
        · exact Or.inl h2
        · exact Or.inr (List.mem_cons_of_mem _ h2)

theorem mem_sortDesc {x : Nat × ℚ} {l : List (Nat × ℚ)}
    (h : x ∈ sortDesc l) : x ∈ l := by
  induction l with
  | nil => simpa [sortDesc] using h
  | cons y ys ih =>
    simp only [sortDesc] at h
    rcases mem_insertDesc h with h1 | h1
    · simp [h1]
    · exact List.mem_cons_of_mem _ (ih h1)

theorem topkRow_length {row : List ℚ} {k : Nat} (hk : k ≤ row.length) :
    (topkRow row k).length = k := by
  simp only [topkRow, List.length_take, sortDesc_length, List.enum_eq_enumFrom,
    List.enumFrom_length]
  omega

theorem topkRow_mem {row : List ℚ} {k : Nat} {e : Nat × ℚ}
    (he : e ∈ topkRow row k) : e.1 < row.length ∧ row.getD e.1 0 = e.2 := by
  have h1 : e ∈ sortDesc row.enum := List.mem_of_mem_take he
  have h2 : e ∈ row.enum := mem_sortDesc h1
  have h3 : row.get? e.1 = some e.2 := List.mem_enum_iff_get?.mp h2
  have h4 : e.1 < row.length := by
    rcases List.get?_eq_some.mp h3 with ⟨hlt, _⟩
    exact hlt
  refine ⟨h4, ?_⟩
  rw [List.getD_eq_getElem?_getD, ← List.get?_eq_getElem?, h3]
  rfl

theorem mem_pyStrip {s : List Char} {c : Char} (h : c ∈ pyStrip s) : c ∈ s := by
  unfold pyStrip at h
  rw [List.mem_reverse] at h
  have h1 := (List.dropWhile_sublist (l := (s.dropWhile pyWs).reverse) pyWs).subset h
  rw [List.mem_reverse] at h1
  exact (List.dropWhile_sublist pyWs).subset h1

theorem pyStrip_getLast {s : List Char} {c : Char}
    (h : (pyStrip s).getLast? = some c) : pyWs c = false := by
  unfold pyStrip at h
  rw [List.getLast?_reverse] at h
  have h1 := List.head?_dropWhile_not pyWs ((s.dropWhile pyWs).reverse)
  rw [h] at h1
  exact h1

theorem pyStrip_head {s : List Char} {c : Char}
    (h : (pyStrip s).head? = some c) : pyWs c = false := by
  unfold pyStrip at h
  rw [List.head?_reverse] at h
  set t := s.dropWhile pyWs with ht
  rcases hsuf : List.dropWhile pyWs t.reverse with _ | ⟨u, us⟩
  · rw [hsuf] at h; simp at h
  · rw [hsuf] at h
    rcases List.dropWhile_suffix (l := t.reverse) pyWs with ⟨w, hw⟩
    rw [hsuf] at hw
    have hlast : t.reverse.getLast? = some c := by
      rw [← hw, List.getLast?_append]
      have : (u :: us).getLast? = some c := h
      rw [this]
      rfl
    rw [List.getLast?_reverse] at hlast
    have h1 := List.head?_dropWhile_not pyWs s
    rw [← ht] at h1
    rw [hlast] at h1
    exact h1

theorem cleanOutput_clean (t : String) :
    ((cleanOutput t).data.all (fun c => c ≠ '\n') && noEdgeWs (cleanOutput t).data) = true := by
  have hdata : (cleanOutput t).data = pyStrip (removeNewlines t.data) := rfl
  apply Bool.and_eq_true_iff.mpr
  constructor
  · rw [List.all_eq_true]
    intro c hc
    rw [hdata] at hc
    have h1 : c ∈ removeNewlines t.data := mem_pyStrip hc
    have h2 := List.mem_filter.mp h1
    simpa using h2.2
  · unfold noEdgeWs
    rw [hdata]
    apply Bool.and_eq_true_iff.mpr
    constructor
    · rcases hh : (pyStrip (removeNewlines t.data)).head? with _ | ⟨c⟩
      · rfl
      · simp [pyStrip_head hh]
    · rcases hh : (pyStrip (removeNewlines t.data)).getLast? with _ | ⟨c⟩
      · rfl
      · simp [pyStrip_getLast hh]

/-! Claim theorems. -/

/-- C4: for every dtype string outside {"float32", "float16", "bfloat16"},
each of the three wrapper constructors fails with the ValueError whose
message lists the allowed set, and it does so for every possible loader —
the outcome is independent of `load_model`, which is never invoked. -/
theorem C4_invalid_dtype_rejected {α β γ : Type}
    (dtype : String) (h : dtype ∉ allowedDtypes)
    (tl : Unit → α) (vl : Unit → β) (ml : Unit → γ)
    (modelId device revision : String) (cuda : Bool) :
    timmInit tl modelId device dtype = .error (.valueError dtypeErrMsg) ∧
    v2sInit vl modelId device dtype = .error (.valueError dtypeErrMsg) ∧
    moondreamInit cuda ml modelId revision device dtype
        = .error (.valueError dtypeErrMsg) ∧
    allowedDtypes.all (pyContains dtypeErrMsg) = true := by
  refine ⟨?_, ?_, ?_, by decide⟩
  · simp [timmInit, h]
  · simp [v2sInit, h]
  · simp [moondreamInit, h]

/-- C4 witness: the constructors at dtype "float64" with concrete loaders. -/
theorem C4_witness :
    timmInit (fun _ => (0 : Nat)) "m" "cpu" "float64"
        = .error (.valueError dtypeErrMsg) ∧
    v2sInit (fun _ => (0 : Nat)) "m" "cpu" "float64"
        = .error (.valueError dtypeErrMsg) ∧
    moondreamInit true (fun _ => (0 : Nat)) "m" "2024-08-26" "cpu" "float64"
        = .error (.valueError dtypeErrMsg) ∧
    allowedDtypes.all (pyContains dtypeErrMsg) = true :=
  C4_invalid_dtype_rejected "float64" (by decide)
    (fun _ => (0 : Nat)) (fun _ => (0 : Nat)) (fun _ => (0 : Nat))
    "m" "cpu" "2024-08-26" true

/-- C1 counterexample: `Moondream.infer_batch` takes both images and prompts
but performs no length check — with one image and two prompts it does not
fail with a ValueError; it succeeds and hands the mismatched lists to the
external `batch_answer`. -/
theorem C1_counterexample :
    moondreamInferBatch fsOnlyEnv (fun _ ps => ps.map (fun _ => "ans"))
        [.str "a.jpg"] ["p", "q"] = .ok ["ans", "ans"] ∧
    [ImgInput.str "a.jpg"].length ≠ ["p", "q"].length := by
  exact ⟨rfl, by decide⟩

/-- C1 amended: for Vision2SeqModel — the only wrapper whose preprocess takes
both images and prompts — a length mismatch of the normalized lists always
fails with the mismatch ValueError before any resolution or external call
(the result is independent of the environment and the generate function);
Moondream.infer_batch performs no such check. -/
theorem C1_v2s_mismatch_rejected (env : Env)
    (gen : List Image → List String → List String) (elapsed : ℚ) (st : V2SState)
    (images : List ImgInput) (prompts : List String)
    (h : images.length ≠ prompts.length) :
    v2sPreprocess env (.many images) (.many prompts)
        = .error (.valueError v2sLenMismatchMsg) ∧
    v2sInferBatch env gen elapsed images prompts st
        = .error (.valueError v2sLenMismatchMsg) := by
  have h1 : v2sPreprocess env (.many images) (.many prompts)
      = .error (.valueError v2sLenMismatchMsg) := by
    simp [v2sPreprocess, normImages, normPrompts, h]
  exact ⟨h1, by simp [v2sInferBatch, h1]⟩

/-- C1 witness: Vision2SeqModel with one image and two prompts. -/
theorem C1_witness :
    v2sPreprocess fsOnlyEnv (.many [.str "a.jpg"]) (.many ["p", "q"])
        = .error (.valueError v2sLenMismatchMsg) ∧
    v2sInferBatch fsOnlyEnv (fun _ _ => []) 0 [.str "a.jpg"] ["p", "q"] st0
        = .error (.valueError v2sLenMismatchMsg) :=
  C1_v2s_mismatch_rejected fsOnlyEnv (fun _ _ => []) 0 st0
    [.str "a.jpg"] ["p", "q"] (by decide)

/-- C2 counterexample: `TimmModel.preprocess` on a nonexistent local path
propagates PIL's FileNotFoundError unwrapped — the failure is not a
ValueError, contradicting the claim for the timm wrapper. -/
theorem C2_counterexample :
    timmPreprocess emptyEnv (.one (.str "missing.jpg"))
        = .error (.fileNotFoundError "missing.jpg") ∧
    PyErr.isValueError (.fileNotFoundError "missing.jpg") = false := by
  exact ⟨rfl, rfl⟩

/-- C2 amended: a nonexistent local path makes Vision2SeqModel.preprocess
and Moondream.preprocess fail with ValueError "Local file not found: <path>"
(the message references the path), while TimmModel.preprocess propagates the
FileNotFoundError unmodified instead of raising a ValueError. -/
theorem C2_missing_file (env : Env) (p : String)
    (hurl : isUrl p = false) (hfs : env.fs p = none) :
    v2sPreprocess env (.one (.str p)) (.one "q")
        = .error (.valueError ("Local file not found: " ++ p)) ∧
    moondreamPreprocess env (.one (.str p))
        = .error (.valueError ("Local file not found: " ++ p)) ∧
    timmPreprocess env (.one (.str p)) = .error (.fileNotFoundError p) := by
  refine ⟨?_, ?_, ?_⟩
  · simp [v2sPreprocess, normImages, normPrompts, resolveList, vlmResolve, hurl, hfs]
  · simp [moondreamPreprocess, normImages, resolveList, vlmResolve, hurl, hfs]
  · simp [timmPreprocess, normImages, resolveList, timmResolve, hurl, hfs]

/-- C2 witness: the three preprocess calls on the missing path "no.png". -/
theorem C2_witness :
    v2sPreprocess emptyEnv (.one (.str "no.png")) (.one "q")
        = .error (.valueError ("Local file not found: " ++ "no.png")) ∧
    moondreamPreprocess emptyEnv (.one (.str "no.png"))
        = .error (.valueError ("Local file not found: " ++ "no.png")) ∧
    timmPreprocess emptyEnv (.one (.str "no.png"))
        = .error (.fileNotFoundError "no.png") :=
  C2_missing_file emptyEnv "no.png" (by decide) rfl

/-- C3 counterexample: a failed network fetch in `TimmModel.preprocess` is
not translated into a ValueError — the requests error propagates as is. -/
theorem C3_counterexample :
    timmPreprocess emptyEnv (.one (.str "http://host/cat.png"))
        = .error (.requestsError "connection error") ∧
    PyErr.isValueError (.requestsError "connection error") = false := by
  exact ⟨rfl, rfl⟩

/-- C3 amended: when the network fetch of an http(s) URL fails, every
wrapper's preprocess propagates the underlying requests error unmodified;
none of the three wrappers translates it into a ValueError. -/
theorem C3_net_error_propagates (env : Env) (u e : String)
    (hurl : isUrl u = true) (hnet : env.net u = .error e) :
    timmPreprocess env (.one (.str u)) = .error (.requestsError e) ∧
    v2sPreprocess env (.one (.str u)) (.one "q") = .error (.requestsError e) ∧
    moondreamPreprocess env (.one (.str u)) = .error (.requestsError e) ∧
    PyErr.isValueError (.requestsError e) = false := by
  refine ⟨?_, ?_, ?_, rfl⟩
  · simp [timmPreprocess, normImages, resolveList, timmResolve, hurl, hnet]
  · simp [v2sPreprocess, normImages, normPrompts, resolveList, vlmResolve, hurl, hnet]
  · simp [moondreamPreprocess, normImages, resolveList, vlmResolve, hurl, hnet]

/-- C3 witness: the three preprocess calls on a URL whose fetch fails. -/
theorem C3_witness :
    timmPreprocess emptyEnv (.one (.str "http://host/cat.png"))
        = .error (.requestsError "connection error") ∧
    v2sPreprocess emptyEnv (.one (.str "http://host/cat.png")) (.one "q")
        = .error (.requestsError "connection error") ∧
    moondreamPreprocess emptyEnv (.one (.str "http://host/cat.png"))
        = .error (.requestsError "connection error") ∧
    PyErr.isValueError (.requestsError "connection error") = false :=
  C3_net_error_propagates emptyEnv "http://host/cat.png" "connection error"
    (by decide) rfl

/-- C5: each wrapper's infer_batch returns exactly one result per input
image, given the external batch contracts (one timm score row per image, one
decoded string per image from generate+decode, one answer per image from
batch_answer); and image resolution preserves positions, so the i-th result
is built from the i-th input. -/
theorem C5_batch_counts (env : Env)
    (model : List Image → List (List ℚ)) (sm : List ℚ → List ℚ)
    (imClasses : List String) (gen ba : List Image → List String → List String)
    (elapsed : ℚ) (st : V2SState) (k : Nat)
    (images : List ImgInput) (prompts : List String)
    (imgs : List Image) (i : Nat)
    (resT : List (List PyDict)) (resV : List String) (stV : V2SState)
    (resM : List String)
    (hmodel : ∀ xs, (model xs).length = xs.length)
    (hgen : ∀ xs ps, (gen xs ps).length = xs.length)
    (hba : ∀ xs ps, (ba xs ps).length = xs.length)
    (hT : timmInferBatch env model sm imClasses images k = .ok resT)
    (hV : v2sInferBatch env gen elapsed images prompts st = .ok (resV, stV))
    (hM : moondreamInferBatch env ba images prompts = .ok resM)
    (himgs : resolveList (vlmResolve env) images = .ok imgs)
    (hi : i < images.length) :
    resT.length = images.length ∧
    resV.length = images.length ∧
    resM.length = images.length ∧
    imgs.length = images.length ∧
    vlmResolve env (images.getD i .nonStr) = .ok (imgs.getD i ⟨""⟩) := by
  refine ⟨?_, ?_, ?_, resolveList_ok_length himgs, resolveList_ok_get himgs i hi⟩
  · unfold timmInferBatch at hT
    cases hpre : timmPreprocess env (.many images) with
    | error e => rw [hpre] at hT; exact absurd hT (by simp)
    | ok timgs =>
      rw [hpre] at hT
      simp only [Except.ok.injEq] at hT
      have hlen : timgs.length = images.length :=
        resolveList_ok_length (by simpa [timmPreprocess, normImages] using hpre)
      rw [← hT]
      simp [hlen]
  · unfold v2sInferBatch at hV
    cases hpre : v2sPreprocess env (.many images) (.many prompts) with
    | error e => rw [hpre] at hV; exact absurd hV (by simp)
    | ok pr =>
      rw [hpre] at hV
      obtain ⟨rimgs, ps⟩ := pr
      simp only [Except.ok.injEq, Prod.mk.injEq] at hV
      obtain ⟨hres, _⟩ := hV
      unfold v2sPreprocess at hpre
      simp only [normImages, normPrompts] at hpre
      split at hpre
      · exact absurd hpre (by simp)
      · cases hrl : resolveList (vlmResolve env) images with
        | error e => rw [hrl] at hpre; exact absurd hpre (by simp)
        | ok rimgs2 =>
          rw [hrl] at hpre
          simp only [Except.ok.injEq, Prod.mk.injEq] at hpre
          obtain ⟨h1, _⟩ := hpre
          subst h1
          rw [← hres]
          simp [v2sPostprocess, hgen, resolveList_ok_length hrl]
  · unfold moondreamInferBatch at hM
    cases hpre : moondreamPreprocess env (.many images) with
    | error e => rw [hpre] at hM; exact absurd hM (by simp)
    | ok mimgs =>
      rw [hpre] at hM
      simp only [Except.ok.injEq] at hM
      have hlen : mimgs.length = images.length :=
        resolveList_ok_length (by simpa [moondreamPreprocess, normImages] using hpre)
      rw [← hM]
      simp [hba, hlen]

/-- C5 witness: a concrete two-image batch through all three wrappers. -/
theorem C5_witness :
    ([([] : List PyDict), []]).length = [ImgInput.str "a", ImgInput.str "b"].length ∧
    (["out", "out"] : List String).length
        = [ImgInput.str "a", ImgInput.str "b"].length ∧
    (["out", "out"] : List String).length
        = [ImgInput.str "a", ImgInput.str "b"].length ∧
    ([Image.mk "a", Image.mk "b"]).length
        = [ImgInput.str "a", ImgInput.str "b"].length ∧
    vlmResolve fsOnlyEnv ([ImgInput.str "a", ImgInput.str "b"].getD 0 .nonStr)
        = .ok ([Image.mk "a", Image.mk "b"].getD 0 ⟨""⟩) :=
  C5_batch_counts fsOnlyEnv (fun xs => xs.map (fun _ => [1])) (fun r => r) ["c"]
    (fun xs _ => xs.map (fun _ => "out")) (fun xs _ => xs.map (fun _ => "out"))
    0 st0 0 [ImgInput.str "a", ImgInput.str "b"] ["p", "q"]
    [Image.mk "a", Image.mk "b"] 0
    [[], []] ["out", "out"]
    { st0 with stats := updateInferenceCount (trackInferenceTime st0.stats 0) 2 }
    ["out", "out"]
    (by intro xs; simp) (by intro xs ps; simp) (by intro xs ps; simp)
    rfl rfl rfl rfl (by decide)

/-- C6: list_models with a wildcard displays exactly the rows of the
registered entries whose id contains the wildcard as a case-insensitive
substring, in registration order, and whenever more than `limit` rows match
the display is the first `limit` matching rows followed by exactly two
ellipsis placeholder rows. -/
theorem C6_list_models_filter (registry : List ModelInfo) (w : String) (limit : Nat) :
    listModelsRows registry (some w) limit =
      (if ((registry.filter (fun m => pyContains (pyLower m.id) (pyLower w))).map
            modelRow).length ≤ limit
       then (registry.filter (fun m => pyContains (pyLower m.id) (pyLower w))).map
            modelRow
       else ((registry.filter (fun m => pyContains (pyLower m.id) (pyLower w))).map
            modelRow).take limit ++ [ellipsisRow, ellipsisRow]) ∧
    ∀ m : ModelInfo,
      m ∈ registry.filter (fun m => pyContains (pyLower m.id) (pyLower w)) ↔
      m ∈ registry ∧ pyContains (pyLower m.id) (pyLower w) = true := by
  constructor
  · have hmw : matchesWildcard (some w)
        = fun m => pyContains (pyLower m.id) (pyLower w) := rfl
    unfold listModelsRows
    rw [hmw]
    by_cases hc : ((registry.filter
        (fun m => pyContains (pyLower m.id) (pyLower w))).map modelRow).length ≤ limit
    · rw [if_neg (by omega), if_pos hc]
    · rw [if_pos (by omega), if_neg hc]
  · intro m
    exact List.mem_filter

/-- C7 (registry modelled from the spec, model_registry.py being outside
src/): for every id not present in the registry, create_model fails with the
lookup error; and create_model is a pure pass-through returning exactly what
the registry's get_model returns for the same arguments. -/
theorem C7_create_model_passthrough {κ α : Type}
    (registry : List (String × (κ → α))) (modelId : String) (kwargs : κ)
    (habs : ∀ e ∈ registry, e.1 ≠ modelId) :
    create_model registry modelId kwargs = .error (.lookupError modelId) ∧
    create_model registry modelId kwargs = get_model registry modelId kwargs := by
  have hfind : registry.find? (fun e => e.1 == modelId) = none := by
    rw [List.find?_eq_none]
    intro e he
    simpa using habs e he
  exact ⟨by simp [create_model, get_model, hfind], rfl⟩

/-- C7 witness: a one-entry registry and an absent id. -/
theorem C7_witness :
    create_model [("vikhyatk/moondream2", fun k => k + 1)] "missing-model" (5 : Nat)
        = .error (.lookupError "missing-model") ∧
    create_model [("vikhyatk/moondream2", fun k => k + 1)] "missing-model" (5 : Nat)
        = get_model [("vikhyatk/moondream2", fun k => k + 1)] "missing-model"
            (5 : Nat) :=
  C7_create_model_passthrough [("vikhyatk/moondream2", fun k => k + 1)]
    "missing-model" 5 (by intro e he; simp at he; simp [he])

/-- C8: with `top_k = k` (within the width of the score row, as torch.topk
requires), TimmModel.infer returns the result list built from output row 0:
exactly `k` dicts, each with key sequence ["class", "id", "confidence"],
whose confidence is the softmax probability of the returned class id
multiplied by 100; and TimmModel.infer_batch builds one such per-image list
from each output row. -/
theorem C8_timm_topk_results (env : Env) (model : List Image → List (List ℚ))
    (sm : List ℚ → List ℚ) (imClasses : List String) (image : ImgInput)
    (batch : List ImgInput) (imgs bimgs : List Image) (row : List ℚ) (k : Nat)
    (d : PyDict)
    (himgs : timmPreprocess env (.one image) = .ok imgs)
    (hbatch : timmPreprocess env (.many batch) = .ok bimgs)
    (hrow : (model imgs).getD 0 [] = row)
    (hk : k ≤ (sm row).length)
    (hd : d ∈ timmRowResult imClasses sm row k) :
    timmInfer env model sm imClasses image k
        = .ok (timmRowResult imClasses sm row k) ∧
    timmInferBatch env model sm imClasses batch k
        = .ok ((List.range bimgs.length).map
            (fun i => timmRowResult imClasses sm ((model bimgs).getD i []) k)) ∧
    (timmRowResult imClasses sm row k).length = k ∧
    d.map Prod.fst = ["class", "id", "confidence"] ∧
    (∃ j, j < (sm row).length ∧
      d = [("class", PyVal.s (imClasses.getD j "")),
           ("id", PyVal.i (j : Int)),
           ("confidence", PyVal.q ((sm row).getD j 0 * 100))]) := by
  have hprobs : ((sm row).map (fun p => p * 100)).length = (sm row).length :=
    List.length_map _ _
  refine ⟨?_, ?_, ?_, ?_, ?_⟩
  · have hrow' : (model imgs)[0]?.getD [] = row := by
      rw [← List.getD_eq_getElem?_getD]
      exact hrow
    simp [timmInfer, himgs, hrow']
  · simp [timmInferBatch, hbatch]
  · unfold timmRowResult
    rw [List.length_map]
    exact topkRow_length (by rw [hprobs]; exact hk)
  · obtain ⟨e, _, he⟩ := List.mem_map.mp hd
    rw [← he]
    rfl
  · obtain ⟨e, hetop, he⟩ := List.mem_map.mp hd
    obtain ⟨hlt, hval⟩ := topkRow_mem hetop
    rw [hprobs] at hlt
    refine ⟨e.1, hlt, ?_⟩
    rw [← he]
    have hv : ((sm row).map (fun p => p * 100)).getD e.1 0
        = (sm row).getD e.1 0 * 100 := by
      rw [List.getD_eq_getElem?_getD, List.getD_eq_getElem?_getD, List.getElem?_map]
      rcases hsome : (sm row)[e.1]? with _ | v
      · rw [List.getElem?_eq_none_iff] at hsome
        omega
      · simp
    rw [hv] at hval
    rw [← hval]

/-- C8 witness: one image, one-entry score row, k = 1. -/
theorem C8_witness :
    timmInfer fsOnlyEnv (fun xs => xs.map (fun _ => [2])) (fun r => r) ["c0"]
        (.str "a.jpg") 1
        = .ok (timmRowResult ["c0"] (fun r => r) [2] 1) ∧
    timmInferBatch fsOnlyEnv (fun xs => xs.map (fun _ => [2])) (fun r => r) ["c0"]
        [ImgInput.str "a.jpg", ImgInput.str "b.jpg"] 1
        = .ok ((List.range ([Image.mk "a.jpg", Image.mk "b.jpg"]).length).map
            (fun i => timmRowResult ["c0"] (fun r => r)
              (([Image.mk "a.jpg", Image.mk "b.jpg"].map (fun _ => [2])).getD i [])
              1)) ∧
    (timmRowResult ["c0"] (fun r => r) [2] 1).length = 1 ∧
    ([("class", PyVal.s "c0"), ("id", PyVal.i 0),
      ("confidence", PyVal.q (2 * 100))] : PyDict).map Prod.fst
        = ["class", "id", "confidence"] ∧
    (∃ j, j < ([(2 : ℚ)]).length ∧
      ([("class", PyVal.s "c0"), ("id", PyVal.i 0),
        ("confidence", PyVal.q (2 * 100))] : PyDict)
        = [("class", PyVal.s (["c0"].getD j "")),
           ("id", PyVal.i (j : Int)),
           ("confidence", PyVal.q (([(2 : ℚ)]).getD j 0 * 100))]) :=
  C8_timm_topk_results fsOnlyEnv (fun xs => xs.map (fun _ => [2])) (fun r => r)
    ["c0"] (.str "a.jpg") [ImgInput.str "a.jpg", ImgInput.str "b.jpg"]
    [Image.mk "a.jpg"] [Image.mk "a.jpg", Image.mk "b.jpg"] [2] 1
    [("class", PyVal.s "c0"), ("id", PyVal.i 0), ("confidence", PyVal.q (2 * 100))]
    rfl rfl rfl (by decide) (List.mem_singleton.mpr rfl)

/-- C9: every string returned by Vision2SeqModel.infer, and every element of
the list returned by Vision2SeqModel.infer_batch, comes out of postprocess:
it contains no newline character, and neither its first nor its last
character is whitespace. -/
theorem C9_outputs_trimmed (env : Env)
    (gen : List Image → List String → List String) (elapsed : ℚ)
    (image : ImgInput) (prompt : String) (st : V2SState) (r : String)
    (st' : V2SState) (images : List ImgInput) (prompts : List String)
    (resB : List String) (stB : V2SState) (s : String)
    (hInf : v2sInfer env gen elapsed image prompt st = .ok (r, st'))
    (hBatch : v2sInferBatch env gen elapsed images prompts st = .ok (resB, stB))
    (hs : s ∈ resB) :
    (r.data.all (fun c => c ≠ '\n') && noEdgeWs r.data) = true ∧
    (s.data.all (fun c => c ≠ '\n') && noEdgeWs s.data) = true := by
  constructor
  · unfold v2sInfer at hInf
    cases hpre : v2sPreprocess env (.one image) (.one prompt) with
    | error e => rw [hpre] at hInf; exact absurd hInf (by simp)
    | ok pr =>
      rw [hpre] at hInf
      obtain ⟨imgs, ps⟩ := pr
      cases hdec : v2sPostprocess (gen imgs ps) with
      | nil => simp [hdec] at hInf
      | cons r0 rest =>
        simp only [hdec, Except.ok.injEq, Prod.mk.injEq] at hInf
        obtain ⟨hr, _⟩ := hInf
        have hmem : r0 ∈ v2sPostprocess (gen imgs ps) := by
          rw [hdec]; exact List.mem_cons_self _ _
        obtain ⟨t, _, ht⟩ := List.mem_map.mp hmem
        rw [← hr, ← ht]
        exact cleanOutput_clean t
  · unfold v2sInferBatch at hBatch
    cases hpre : v2sPreprocess env (.many images) (.many prompts) with
    | error e => rw [hpre] at hBatch; exact absurd hBatch (by simp)
    | ok pr =>
      rw [hpre] at hBatch
      obtain ⟨imgs, ps⟩ := pr
      simp only [Except.ok.injEq, Prod.mk.injEq] at hBatch
      obtain ⟨hres, _⟩ := hBatch
      rw [← hres] at hs
      obtain ⟨t, _, ht⟩ := List.mem_map.mp hs
      rw [← ht]
      exact cleanOutput_clean t

/-- C9 witness: a decoded output with inner newline and edge whitespace. -/
theorem C9_witness :
    (("hithere").data.all (fun c => c ≠ '\n') && noEdgeWs ("hithere").data)
        = true ∧
    (("hithere").data.all (fun c => c ≠ '\n') && noEdgeWs ("hithere").data)
        = true :=
  C9_outputs_trimmed fsOnlyEnv (fun _ _ => ["  hi\nthere  "]) 1 (.str "a.jpg")
    "p" st0 "hithere"
    { st0 with stats := updateInferenceCount (trackInferenceTime st0.stats 1) 1 }
    [ImgInput.str "a.jpg"] ["p"] ["hithere"]
    { st0 with stats := updateInferenceCount (trackInferenceTime st0.stats 1) 1 }
    "hithere" rfl rfl (by decide)

/-- C10 counterexample: a successful infer with nonzero elapsed time changes
the stats' cumulative time as well, so the resulting state is not the
claimed count-only update of the original state. -/
theorem C10_counterexample :
    v2sInfer fsOnlyEnv (fun _ _ => ["hello"]) 5 (.str "a.jpg") "p" st0
        = .ok ("hello",
          { st0 with stats := updateInferenceCount (trackInferenceTime st0.stats 5) 1 }) ∧
    ({ st0 with stats := updateInferenceCount (trackInferenceTime st0.stats 5) 1 }
        ≠ { st0 with stats := updateInferenceCount st0.stats 1 }) := by
  refine ⟨rfl, ?_⟩
  intro h
  have h2 := congrArg (fun s => s.stats.totalTime) h
  simp only [updateInferenceCount, trackInferenceTime, st0] at h2
  norm_num at h2

/-- C10 amended: a successful infer adds exactly 1 to the inference count
and a successful infer_batch adds exactly the number of input images; the
timing context also adds the elapsed time of the run to the stats'
cumulative time; all remaining wrapper fields (modelId, device, dtype) are
unchanged. -/
theorem C10_stats_update (env : Env)
    (gen : List Image → List String → List String) (elapsed : ℚ)
    (image : ImgInput) (prompt : String) (st : V2SState) (r : String)
    (st' : V2SState) (images : List ImgInput) (prompts : List String)
    (resB : List String) (stB : V2SState)
    (hInf : v2sInfer env gen elapsed image prompt st = .ok (r, st'))
    (hBatch : v2sInferBatch env gen elapsed images prompts st = .ok (resB, stB)) :
    st'.stats.inferenceCount = st.stats.inferenceCount + 1 ∧
    st'.stats.totalTime = st.stats.totalTime + elapsed ∧
    st'.modelId = st.modelId ∧ st'.device = st.device ∧ st'.dtype = st.dtype ∧
    stB.stats.inferenceCount = st.stats.inferenceCount + images.length ∧
    stB.stats.totalTime = st.stats.totalTime + elapsed ∧
    stB.modelId = st.modelId ∧ stB.device = st.device ∧ stB.dtype = st.dtype := by
  have hst' : st'
      = { st with stats := updateInferenceCount (trackInferenceTime st.stats elapsed) 1 } := by
    unfold v2sInfer at hInf
    cases hpre : v2sPreprocess env (.one image) (.one prompt) with
    | error e => rw [hpre] at hInf; exact absurd hInf (by simp)
    | ok pr =>
      rw [hpre] at hInf
      obtain ⟨imgs, ps⟩ := pr
      cases hdec : v2sPostprocess (gen imgs ps) with
      | nil => simp [hdec] at hInf
      | cons r0 rest =>
        simp only [hdec, Except.ok.injEq, Prod.mk.injEq] at hInf
        exact hInf.2.symm
  have hstB : stB
      = { st with stats := updateInferenceCount (trackInferenceTime st.stats elapsed) images.length } := by
    unfold v2sInferBatch at hBatch
    cases hpre : v2sPreprocess env (.many images) (.many prompts) with
    | error e => rw [hpre] at hBatch; exact absurd hBatch (by simp)
    | ok pr =>
      rw [hpre] at hBatch
      obtain ⟨imgs, ps⟩ := pr
      simp only [Except.ok.injEq, Prod.mk.injEq] at hBatch
      exact hBatch.2.symm
  subst hst'
  subst hstB
  simp [updateInferenceCount, trackInferenceTime]

/-- C10 witness: a concrete run with elapsed time 1. -/
theorem C10_witness :
    ({ st0 with stats := updateInferenceCount (trackInferenceTime st0.stats 1) 1
      } : V2SState).stats.inferenceCount = st0.stats.inferenceCount + 1 ∧
    ({ st0 with stats := updateInferenceCount (trackInferenceTime st0.stats 1) 1
      } : V2SState).stats.totalTime = st0.stats.totalTime + 1 ∧
    ({ st0 with stats := updateInferenceCount (trackInferenceTime st0.stats 1) 1
      } : V2SState).modelId = st0.modelId ∧
    ({ st0 with stats := updateInferenceCount (trackInferenceTime st0.stats 1) 1
      } : V2SState).device = st0.device ∧
    ({ st0 with stats := updateInferenceCount (trackInferenceTime st0.stats 1) 1
      } : V2SState).dtype = st0.dtype ∧
    ({ st0 with stats := updateInferenceCount (trackInferenceTime st0.stats 1) 2
      } : V2SState).stats.inferenceCount
        = st0.stats.inferenceCount + ([ImgInput.str "a", ImgInput.str "b"]).length ∧
    ({ st0 with stats := updateInferenceCount (trackInferenceTime st0.stats 1) 2
      } : V2SState).stats.totalTime = st0.stats.totalTime + 1 ∧
    ({ st0 with stats := updateInferenceCount (trackInferenceTime st0.stats 1) 2
      } : V2SState).modelId = st0.modelId ∧
    ({ st0 with stats := updateInferenceCount (trackInferenceTime st0.stats 1) 2
      } : V2SState).device = st0.device ∧
    ({ st0 with stats := updateInferenceCount (trackInferenceTime st0.stats 1) 2
      } : V2SState).dtype = st0.dtype :=
  C10_stats_update fsOnlyEnv (fun xs _ => xs.map (fun _ => "hello")) 1
    (.str "a.jpg") "p" st0 "hello"
    { st0 with stats := updateInferenceCount (trackInferenceTime st0.stats 1) 1 }
    [ImgInput.str "a", ImgInput.str "b"] ["p", "q"] ["hello", "hello"]
    { st0 with stats := updateInferenceCount (trackInferenceTime st0.stats 1) 2 }
    rfl rfl

end InferX
